import Mathlib

/-!
Verification of the buck2 transitive-set engine
(`app/buck2_build_api/src/interpreter/rule_defs/transitive_set/transitive_set.rs`)
as a shallow embedding in Lean 4.

Starlark `Value`s are modelled by the inductive `SVal`; a transitive set
(`TransitiveSetGen`) stores its key, its definition (pure schema data; the
callbacks are function handles resolved by an `Evaluator`), an optional node,
precomputed reductions and the raw children values, exactly as the Rust
struct does.  External collaborators (the Starlark evaluator, the
command-line/JSON validators, the artifact visitor, the freezer and the
traversal iterators, whose sources are not part of this tree) are modelled
from the specification and clearly marked as such.
-/

/-- Kind of a projection, from `TransitiveSetProjectionKind` (Args or Json). -/
inductive TransitiveSetProjectionKind where
  | Args
  | Json
deriving DecidableEq, Repr

/-- A projection spec of a definition: its kind and the callback function,
modelled as a function handle to be resolved by the evaluator
(in the source, `spec.projection` is a frozen Starlark function value). -/
structure ProjectionSpec where
  kind : TransitiveSetProjectionKind
  projection : Nat
deriving DecidableEq, Repr

/-- The schema data of a `FrozenTransitiveSetDefinition`:
`defId` models the pointer identity of the frozen definition value
(used by `matches_definition` via `ptr_eq`); `exported` models
`exported.get()`: `some tid` when the definition has been exported with
`set_type_instance_id = tid` (`has_id`), `none` before assignment;
`projections` and `reductions` model `operations().projections` and
`operations().reductions` (ordered name/spec maps); `debugRepr` models the
string produced by `format!` on `def.as_debug()`. -/
structure TSetDefinition where
  defId : Nat
  exported : Option Nat
  projections : List (String × ProjectionSpec)
  reductions : List (String × Nat)
  debugRepr : String
deriving DecidableEq, Repr

mutual
/-- A Starlark value, as far as the transitive-set engine inspects it:
a transitive set, or some other value (none, int, string, list). -/
inductive SVal where
  | none
  | int (n : Int)
  | str (s : String)
  | list (xs : List SVal)
  | set (t : TransitiveSetGen)

/-- `TransitiveSetGen`: key, definition, optional node, precomputed
reductions, and the raw children values. -/
inductive TransitiveSetGen where
  | mk (key : Nat) (definition : TSetDefinition) (node : Option NodeGen)
      (reductions : List SVal) (children : List SVal)

/-- `NodeGen`: the node's value and its precomputed projections. -/
inductive NodeGen where
  | mk (value : SVal) (projections : List SVal)
end

def TransitiveSetGen.key : TransitiveSetGen → Nat
  | .mk k _ _ _ _ => k

def TransitiveSetGen.definition : TransitiveSetGen → TSetDefinition
  | .mk _ d _ _ _ => d

def TransitiveSetGen.node : TransitiveSetGen → Option NodeGen
  | .mk _ _ n _ _ => n

def TransitiveSetGen.reductions : TransitiveSetGen → List SVal
  | .mk _ _ _ r _ => r

def TransitiveSetGen.children : TransitiveSetGen → List SVal
  | .mk _ _ _ _ c => c

def NodeGen.value : NodeGen → SVal
  | .mk v _ => v

def NodeGen.projections : NodeGen → List SVal
  | .mk _ p => p

/-- `TransitiveSet::from_value` / downcast of a Starlark value to a
transitive set (`TransitiveSetLike::from_value`). -/
def SVal.asTSet : SVal → Option TransitiveSetGen
  | .set t => some t
  | _ => Option.none

/-- Rendering of a Starlark value by `to_string()`, used in the
`TransitiveValueIsNotTransitiveSet { got }` error. The exact text is
irrelevant to the engine; sets display as in the source `Display` impl. -/
def SVal.display : SVal → String
  | .none => "None"
  | .int n => toString n
  | .str s => s
  | .list _ => "list"
  | .set t => (t.definition).debugRepr

/-- `TransitiveSetError` (the engine's own error kinds). -/
inductive TransitiveSetError where
  | TransitiveSetUsedBeforeAssignment
  | TransitiveValueIsOfWrongType (expected got : String)
  | TransitiveValueIsNotTransitiveSet (got : String)
  | ProjectionError (name : String) (error : String)
  | ReductionError (name : String) (error : String)
  | ReductionDoesNotExist (reduction : String) (valid_reductions : List String)
deriving DecidableEq, Repr

/-- An `anyhow::Error` as the engine produces it: one of its own
`TransitiveSetError` kinds, an anyhow context message (`.context(...)`),
or an error raised by an external collaborator and propagated unchanged. -/
inductive BuckError where
  | tset (e : TransitiveSetError)
  | context (msg : String)
  | external (msg : String)
deriving DecidableEq, Repr

/-- The external Starlark evaluator: resolves a function handle and applies
it to positional arguments (`eval.eval_function(f, args, &[])`). -/
def Evaluator : Type := Nat → List SVal → Except String SVal

/-- The external validators called during construction:
`TransitiveSetArgsProjection::as_command_line` and
`validate_json ∘ JsonUnpack::unpack_value_err`, whose sources are outside
this tree. Each either accepts the projected value or fails with its own
error, which `TransitiveSet::new` propagates with `?`. -/
structure ProjectionValidators where
  asCommandLine : SVal → Except BuckError Unit
  validateJson : SVal → Except BuckError Unit

/-- `try_map` / short-circuiting `collect::<Result<_, _>>` over a list:
applies `f` left to right, stopping at the first error. -/
def tryMap (f : α → Except ε β) : List α → Except ε (List β)
  | [] => .ok []
  | x :: xs =>
    match f x with
    | .error e => .error e
    | .ok y =>
      match tryMap f xs with
      | .error e => .error e
      | .ok ys => .ok (y :: ys)

/-- `format_def` from `TransitiveSet::new`: renders a definition for the
wrong-type error. -/
def format_def (d : TSetDefinition) : String := d.debugRepr

/-- `TransitiveSetGen::matches_definition`: pointer equality of the two
definition values (`ptr_eq`), modelled as equality of `defId`. -/
def TransitiveSetGen.matches_definition (s : TransitiveSetGen)
    (definition : TSetDefinition) : Bool :=
  definition.defId == s.definition.defId

/-- The per-child validation from `TransitiveSet::new`: downcast the value
to a set and check its definition, producing the first applicable error. -/
def checkChild (definition : TSetDefinition) (v : SVal) :
    Except BuckError TransitiveSetGen :=
  match v.asTSet with
  | some set =>
    if set.matches_definition definition then .ok set
    else .error (.tset (.TransitiveValueIsOfWrongType
      (format_def definition) (format_def set.definition)))
  | Option.none =>
    .error (.tset (.TransitiveValueIsNotTransitiveSet v.display))

/-- The projection computation for one spec, from `TransitiveSet::new`:
invoke the callback on the value (failures wrapped as `ProjectionError`),
then run the kind-specific validator, whose failure is propagated raw. -/
def computeOneProjection (eval : Evaluator) (validators : ProjectionValidators)
    (value : SVal) (name : String) (spec : ProjectionSpec) :
    Except BuckError SVal :=
  match eval spec.projection [value] with
  | .error e => .error (.tset (.ProjectionError name e))
  | .ok projected_value =>
    match (match spec.kind with
           | .Args => validators.asCommandLine projected_value
           | .Json => validators.validateJson projected_value) with
    | .error e => .error e
    | .ok _ => .ok projected_value

/-- The node computation from `TransitiveSet::new`: when a value is
present, compute every projection in definition order. -/
def computeNode (eval : Evaluator) (validators : ProjectionValidators)
    (definition : TSetDefinition) (value : SVal) :
    Except BuckError NodeGen :=
  match tryMap (fun p => computeOneProjection eval validators value p.1 p.2)
      definition.projections with
  | .error e => .error e
  | .ok projections => .ok (NodeGen.mk value projections)

/-- The gathering step from `TransitiveSet::new`: a child's
previously-computed reduction value at an index, a missing slot being an
internal-consistency context error. -/
def gatherReduction (idx : Nat) (c : TransitiveSetGen) :
    Except BuckError SVal :=
  match c.reductions.get? idx with
  | some r => Except.ok r
  | Option.none => Except.error (BuckError.context
      ("Child " ++ c.definition.debugRepr ++ " is missing reduction "
        ++ toString idx))

/-- The reduction computation for one spec, from `TransitiveSet::new`:
gather each child's reduction at the same index, allocate the list, and
invoke the reduce callback with `(children_values, value-or-none)`;
callback failures are wrapped as `ReductionError`. -/
def computeOneReduction (eval : Evaluator) (value : Option SVal)
    (children_sets : List TransitiveSetGen) (idx : Nat) (name : String)
    (reduce : Nat) : Except BuckError SVal :=
  match tryMap (gatherReduction idx) children_sets with
  | .error e => .error e
  | .ok children_values =>
    match eval reduce [SVal.list children_values, value.getD SVal.none] with
    | .ok reduced => .ok reduced
    | .error e => .error (.tset (.ReductionError name e))

/-- All reductions, in definition order, from `TransitiveSet::new`. -/
def computeReductions (eval : Evaluator) (value : Option SVal)
    (definition : TSetDefinition) (children_sets : List TransitiveSetGen) :
    Except BuckError (List SVal) :=
  tryMap (fun p => computeOneReduction eval value children_sets p.1 p.2.1 p.2.2)
    definition.reductions.enum

/-- `TransitiveSet::new`: check the definition is exported, validate the
children, compute the node (projections) and the reductions, and produce
the set with the child list as given. -/
def TransitiveSet.new (eval : Evaluator) (validators : ProjectionValidators)
    (key : Nat) (definition : TSetDefinition) (value : Option SVal)
    (children : List SVal) : Except BuckError TransitiveSetGen :=
  if definition.exported.isNone then
    .error (.tset .TransitiveSetUsedBeforeAssignment)
  else
    match tryMap (checkChild definition) children with
    | .error e => .error e
    | .ok children_sets =>
      match ((match value with
             | some v =>
               (match computeNode eval validators definition v with
                | .error e => .error e
                | .ok n => .ok (some n))
             | Option.none => .ok Option.none) :
          Except BuckError (Option NodeGen)) with
      | .error e => .error e
      | .ok node =>
        match computeReductions eval value definition children_sets with
        | .error e => .error e
        | .ok reductions =>
          .ok (TransitiveSetGen.mk key definition node reductions children)

/-- `TransitiveSetGen::get_projection_value`: `Ok(None)` when there is no
node, otherwise the node's projection at the index, with an
`Invalid projection id` context error when out of range. -/
def TransitiveSetGen.get_projection_value (s : TransitiveSetGen)
    (projection : Nat) : Except BuckError (Option SVal) :=
  match s.node with
  | Option.none => .ok Option.none
  | some node =>
    match node.projections.get? projection with
    | some v => .ok (some v)
    | Option.none => .error (.context "Invalid projection id")

/-- `TransitiveSetMatcher`: carries the `TypeInstanceId` of the definition
it was built for. -/
structure TransitiveSetMatcher where
  type_instance_id : Nat
deriving DecidableEq, Repr

/-- `TransitiveSetMatcher::matches`: the value must be a transitive set,
its definition must be exported, and the exported `set_type_instance_id`
must equal the matcher's. -/
def TransitiveSetMatcher.matches (m : TransitiveSetMatcher) (v : SVal) :
    Bool :=
  match v.asTSet with
  | Option.none => false
  | some tset =>
    match tset.definition.exported with
    | Option.none => false
    | some tid => tid == m.type_instance_id

/-- `TransitiveSetOrdering` (preorder, postorder, topological, bfs). -/
inductive TransitiveSetOrdering where
  | Preorder
  | Postorder
  | Topological
  | Bfs
deriving DecidableEq, Repr

/-- The set-typed children of a set, in child order (the iterators
downcast each child value back to a set). -/
def childSets : List SVal → List TransitiveSetGen
  | [] => []
  | SVal.set t :: cs => t :: childSets cs
  | _ :: cs => childSets cs

mutual
/-- Modelled from the spec: the preorder traversal iterator
(`PreorderTransitiveSetIteratorGen`, source not in this tree): depth-first,
the set itself before its children in child order, de-duplicating by set
identity (key); returns the sets in yield order plus the visited keys. -/
def preSet : TransitiveSetGen → List Nat → List TransitiveSetGen × List Nat
  | TransitiveSetGen.mk k d n r c, visited =>
    if k ∈ visited then ([], visited)
    else
      (TransitiveSetGen.mk k d n r c :: (preChildren c (k :: visited)).1,
        (preChildren c (k :: visited)).2)

/-- Modelled from the spec: preorder traversal of a child list. -/
def preChildren : List SVal → List Nat → List TransitiveSetGen × List Nat
  | [], visited => ([], visited)
  | SVal.set t :: rest, visited =>
    ((preSet t visited).1 ++ (preChildren rest (preSet t visited).2).1,
      (preChildren rest (preSet t visited).2).2)
  | _ :: rest, visited => preChildren rest visited
end

mutual
/-- Modelled from the spec: the postorder traversal iterator
(`PostorderTransitiveSetIteratorGen`, source not in this tree):
depth-first, children fully visited (in order) before the set itself,
same de-duplication rule. -/
def postSet : TransitiveSetGen → List Nat → List TransitiveSetGen × List Nat
  | TransitiveSetGen.mk k d n r c, visited =>
    if k ∈ visited then ([], visited)
    else
      ((postChildren c (k :: visited)).1 ++ [TransitiveSetGen.mk k d n r c],
        (postChildren c (k :: visited)).2)

/-- Modelled from the spec: postorder traversal of a child list. -/
def postChildren : List SVal → List Nat → List TransitiveSetGen × List Nat
  | [], visited => ([], visited)
  | SVal.set t :: rest, visited =>
    ((postSet t visited).1 ++ (postChildren rest (postSet t visited).2).1,
      (postChildren rest (postSet t visited).2).2)
  | _ :: rest, visited => postChildren rest visited
end

/-- Modelled from the spec: the breadth-first traversal iterator
(`BfsTransitiveSetIteratorGen`, source not in this tree): level-order from
the root, each set yielded once at its first discovery, children enqueued
at the tail in child order. The `fuel` argument bounds the number of
dequeue steps; `bfsFuel` below always supplies enough. -/
def bfsAux : Nat → List TransitiveSetGen → List Nat → List TransitiveSetGen
  | 0, _, _ => []
  | _ + 1, [], _ => []
  | fuel + 1, s :: rest, visited =>
    if s.key ∈ visited then bfsAux fuel rest visited
    else s :: bfsAux fuel (rest ++ childSets s.children) (s.key :: visited)

/-- Enough bfs fuel for a root: one dequeue for the root plus, for every
reachable set, one dequeue per set-typed child it enqueues. -/
def bfsFuel (s : TransitiveSetGen) : Nat :=
  1 + (((preSet s []).1).map
    (fun t => (childSets t.children).length + 1)).sum

/-- The sets reachable from a root, each exactly once, in the order of the
given traversal; topological order is reverse postorder. -/
def TransitiveSetGen.iterSets (s : TransitiveSetGen)
    (ordering : TransitiveSetOrdering) : List TransitiveSetGen :=
  match ordering with
  | .Preorder => (preSet s []).1
  | .Postorder => (postSet s []).1
  | .Topological => ((postSet s []).1).reverse
  | .Bfs => bfsAux (bfsFuel s) [s] []

/-- `iter(ordering).values()`: the nodes of the traversed sets, sets
without a node contributing nothing. -/
def TransitiveSetGen.iterValues (s : TransitiveSetGen)
    (ordering : TransitiveSetOrdering) : List NodeGen :=
  (s.iterSets ordering).filterMap (fun t => t.node)

/-- `iter_projection_values` (`TransitiveSetGen::iter_projection_values`):
peek the first node of the traversal and validate the projection index
against it (`Invalid projection` context error when out of range), then
yield every traversed node's projection at that index. The source unwraps
each later lookup; here each yielded element is the looked-up option. -/
def TransitiveSetGen.iter_projection_values (s : TransitiveSetGen)
    (ordering : TransitiveSetOrdering) (projection : Nat) :
    Except BuckError (List (Option SVal)) :=
  match (s.iterValues ordering).head? with
  | Option.none =>
    .ok ((s.iterValues ordering).map (fun n => n.projections.get? projection))
  | some v =>
    match v.projections.get? projection with
    | Option.none => .error (.context "Invalid projection")
    | some _ =>
      .ok ((s.iterValues ordering).map
        (fun n => n.projections.get? projection))

/-- `ArtifactGroup`: either a concrete artifact input harvested by the
visitor, or a deferred `TransitiveSetProjection` reference
(`TransitiveSetProjectionKey { key, projection }`). -/
inductive ArtifactGroup where
  | artifact (a : Nat)
  | transitiveSetProjection (key : Nat) (projection : Nat)
deriving DecidableEq, Repr

/-- The external artifact-reference visitor
(`visit_json_artifacts` with a `SimpleCommandLineArtifactVisitor`, source
not in this tree): walks a projection value and yields the artifact
references it contains. -/
def ArtifactVisitor : Type := SVal → Except BuckError (List ArtifactGroup)

/-- `FrozenTransitiveSet::get_projection_sub_inputs`: the visitor's
extraction of this set's own projection value (when a node is present),
followed by one deferred `(child.key, projection)` reference per child. -/
def TransitiveSetGen.get_projection_sub_inputs (s : TransitiveSetGen)
    (visit : ArtifactVisitor) (projection : Nat) :
    Except BuckError (List ArtifactGroup) :=
  match s.get_projection_value projection with
  | .error e => .error e
  | .ok pv =>
    match (match pv with
           | some proj => visit proj
           | Option.none => .ok []) with
    | .error e => .error e
    | .ok own =>
      match tryMap (fun v =>
        match v.asTSet with
        | some t =>
          Except.ok (ArtifactGroup.transitiveSetProjection t.key projection)
        | Option.none => Except.error (BuckError.context "Invalid deferred"))
        s.children with
      | .error e => .error e
      | .ok deferredRefs => .ok (own ++ deferredRefs)

mutual
/-- Modelled from the spec: the external freezer's action on a Starlark
value. A set freezes through `Freeze for TransitiveSet` below; any other
value is frozen by the external freezer `fz` (source outside this tree),
which the spec requires to preserve content. -/
def SVal.freezeV (fz : SVal → SVal) : SVal → SVal
  | .set t => .set (TransitiveSetGen.freezeS fz t)
  | .none => fz .none
  | .int n => fz (.int n)
  | .str s => fz (.str s)
  | .list xs => fz (.list xs)

/-- `Freeze for TransitiveSet`: freeze the node, the reductions and the
children element-wise, keeping the key and the definition. -/
def TransitiveSetGen.freezeS (fz : SVal → SVal) :
    TransitiveSetGen → TransitiveSetGen
  | .mk k d n r c => .mk k d (freezeOptNode fz n) (freezeVList fz r) (freezeVList fz c)

/-- `node.try_map(|node| node.freeze(freezer))`. -/
def freezeOptNode (fz : SVal → SVal) : Option NodeGen → Option NodeGen
  | Option.none => Option.none
  | some n => some (NodeGen.freezeN fz n)

/-- `NodeGen::freeze`: freeze the value and each projection. -/
def NodeGen.freezeN (fz : SVal → SVal) : NodeGen → NodeGen
  | .mk v p => .mk (SVal.freezeV fz v) (freezeVList fz p)

/-- Element-wise freeze of a boxed slice of values. -/
def freezeVList (fz : SVal → SVal) : List SVal → List SVal
  | [] => []
  | v :: vs => SVal.freezeV fz v :: freezeVList fz vs
end

/-- Does a `BuckError` carry the `ProjectionError` kind? -/
def BuckError.isProjectionErr : BuckError → Bool
  | .tset (.ProjectionError _ _) => true
  | _ => false

/-- Sum of the integer elements of a list of values, ignoring others. -/
def sumInts : List SVal → Int
  | [] => 0
  | SVal.int n :: xs => n + sumInts xs
  | _ :: xs => sumInts xs

/-- The integer content of a value, `0` for anything else (`v or 0`). -/
def intOrZero : SVal → Int
  | SVal.int n => n
  | _ => 0

mutual
/-- Modelled from the spec: a value is coercible to a command-line
fragment when it is a string or a list of such fragments (the check done
by the external `TransitiveSetArgsProjection::as_command_line`). -/
def cmdCoercible : SVal → Bool
  | .str _ => true
  | .list xs => cmdCoercibleList xs
  | _ => false

/-- Command-line coercibility of a list of values. -/
def cmdCoercibleList : List SVal → Bool
  | [] => true
  | v :: vs => cmdCoercible v && cmdCoercibleList vs
end

mutual
/-- Modelled from the spec: a value is JSON-serializable when it is none,
an integer, a string, or a list of such values (the check done by the
external `validate_json`). -/
def jsonOk : SVal → Bool
  | .none => true
  | .int _ => true
  | .str _ => true
  | .list xs => jsonOkList xs
  | .set _ => false

/-- JSON-serializability of a list of values. -/
def jsonOkList : List SVal → Bool
  | [] => true
  | v :: vs => jsonOk v && jsonOkList vs
end

/-- Modelled from the spec: concrete validators used for evaluation of the
engine on closed inputs; each fails with its own (non-engine) error. -/
def validatorsImpl : ProjectionValidators :=
  ⟨fun v => if cmdCoercible v then .ok () else
      .error (.external "Expected a command line value"),
   fun v => if jsonOk v then .ok () else
      .error (.external "Invalid JSON value")⟩

mutual
/-- The artifact references contained in a value: integers are artifact
handles, lists are walked recursively (a concrete instance of the
external artifact visitor, modelled from the spec). -/
def visitArtifacts : SVal → List ArtifactGroup
  | .int n => [ArtifactGroup.artifact n.toNat]
  | .list xs => visitArtifactsList xs
  | _ => []

/-- Artifact references of a list of values. -/
def visitArtifactsList : List SVal → List ArtifactGroup
  | [] => []
  | v :: vs => visitArtifacts v ++ visitArtifactsList vs
end

/-- A concrete artifact visitor for closed evaluations. -/
def visitImpl : ArtifactVisitor := fun v => .ok (visitArtifacts v)

/-- A concrete evaluator resolving the function handles used in the closed
examples: `0` is the reduction `sum = lambda children, v: sum(children) +
(v or 0)`; `1` is the identity projection; `2` always fails; `3` projects
to the integer `7` (not command-line coercible); `4` projects to the
string `"a"`. -/
def evalImpl : Evaluator := fun f args =>
  match f, args with
  | 0, [SVal.list xs, v] => .ok (.int (sumInts xs + intOrZero v))
  | 1, [v] => .ok v
  | 2, _ => .error "boom"
  | 3, [_] => .ok (.int 7)
  | 4, [_] => .ok (.str "a")
  | _, _ => .error "unknown function"

/-- A definition with the single reduction `sum` (handle 0). -/
def defSum : TSetDefinition := ⟨10, some 100, [], [("sum", 0)], "defSum"⟩

/-- A second exported definition, distinct from `defSum` but with a
textually identical spec shape. -/
def defOther : TSetDefinition := ⟨11, some 101, [], [("sum", 0)], "defOther"⟩

/-- A definition with one Args projection whose callback (handle 3)
returns a value that is not command-line coercible. -/
def defBadArgs : TSetDefinition :=
  ⟨12, some 102, [("p", ⟨.Args, 3⟩)], [], "defBadArgs"⟩

/-- A definition with one well-behaved Args projection (handle 4). -/
def defArgs : TSetDefinition :=
  ⟨13, some 103, [("p", ⟨.Args, 4⟩)], [], "defArgs"⟩

/-- A definition that has not been exported yet. -/
def defUnexported : TSetDefinition :=
  ⟨14, Option.none, [], [], "defUnexported"⟩

/-- A set built against `defOther`, used as a mismatched child. -/
def otherSet : TransitiveSetGen :=
  .mk 4 defOther Option.none [SVal.int 0] []

/-- A definition with one Json projection through the identity callback. -/
def defJson : TSetDefinition :=
  ⟨15, some 104, [("j", ⟨.Json, 1⟩)], [], "defJson"⟩

/-- `leafA(value=1)` built against `defSum`. -/
def leafASet : TransitiveSetGen :=
  .mk 1 defSum (some (.mk (.int 1) [])) [SVal.int 1] []

/-- `leafB(value=2)` built against `defSum`. -/
def leafBSet : TransitiveSetGen :=
  .mk 2 defSum (some (.mk (.int 2) [])) [SVal.int 2] []

/-- `parent(value=3, children=[leafA, leafB])` built against `defSum`. -/
def parentSet : TransitiveSetGen :=
  .mk 3 defSum (some (.mk (.int 3) [])) [SVal.int 6]
    [SVal.set leafASet, SVal.set leafBSet]

/-- A valueless child built against `defJson`. -/
def jsonChild1 : TransitiveSetGen := .mk 8 defJson Option.none [] []

/-- A second valueless child built against `defJson`. -/
def jsonChild2 : TransitiveSetGen := .mk 9 defJson Option.none [] []

/-- A parent against `defJson` whose projection value contains artifact 5. -/
def jsonParent : TransitiveSetGen :=
  .mk 7 defJson (some (.mk (.list [.int 5]) [.list [.int 5]])) []
    [SVal.set jsonChild1, SVal.set jsonChild2]

theorem tryMap_nil (f : α → Except ε β) : tryMap f [] = .ok [] := rfl

theorem tryMap_ok_length {f : α → Except ε β} {xs : List α} {ys : List β}
    (h : tryMap f xs = .ok ys) : ys.length = xs.length := by
  induction xs generalizing ys with
  | nil => simp [tryMap] at h; simp [← h]
  | cons x xs ih =>
    rw [tryMap] at h
    cases hfx : f x with
    | error e => rw [hfx] at h; exact absurd h (by simp)
    | ok y =>
      rw [hfx] at h
      cases htm : tryMap f xs with
      | error e => rw [htm] at h; exact absurd h (by simp)
      | ok ys2 =>
        rw [htm] at h
        cases h
        simp [ih htm]

theorem tryMap_ok_get {f : α → Except ε β} {xs : List α} {ys : List β}
    (h : tryMap f xs = .ok ys) :
    ∀ i x, xs.get? i = some x → ∃ y, ys.get? i = some y ∧ f x = .ok y := by
  induction xs generalizing ys with
  | nil => intro i x hx; simp at hx
  | cons a as ih =>
    rw [tryMap] at h
    cases hfa : f a with
    | error e => rw [hfa] at h; exact absurd h (by simp)
    | ok y =>
      rw [hfa] at h
      cases htm : tryMap f as with
      | error e => rw [htm] at h; exact absurd h (by simp)
      | ok ys2 =>
        rw [htm] at h
        cases h
        intro i x hx
        cases i with
        | zero => simp at hx; subst hx; exact ⟨y, by simp, hfa⟩
        | succ j =>
          simp only [List.get?] at hx ⊢
          exact ih htm j x hx

theorem tryMap_first_error {f : α → Except ε β} {xs : List α} {x : α} {e : ε}
    {i : Nat} (hx : xs.get? i = some x)
    (hprev : ∀ j y, j < i → xs.get? j = some y → ∃ b, f y = .ok b)
    (hf : f x = .error e) : tryMap f xs = .error e := by
  induction xs generalizing i with
  | nil => simp at hx
  | cons a as ih =>
    cases i with
    | zero =>
      simp at hx; subst hx
      rw [tryMap, hf]
    | succ j =>
      simp only [List.get?] at hx
      obtain ⟨b, hb⟩ := hprev 0 a (Nat.succ_pos j) rfl
      have htail : tryMap f as = .error e :=
        ih hx (fun k y hk hy => hprev (k + 1) y (Nat.succ_lt_succ hk) hy)
      rw [tryMap, hb, htail]

theorem tryMap_ok_of_all {f : α → Except ε β} {xs : List α}
    (h : ∀ x ∈ xs, ∃ b, f x = .ok b) : ∃ ys, tryMap f xs = .ok ys := by
  induction xs with
  | nil => exact ⟨[], rfl⟩
  | cons a as ih =>
    obtain ⟨b, hb⟩ := h a (by simp)
    obtain ⟨ys, hys⟩ := ih (fun x hx => h x (by simp [hx]))
    exact ⟨b :: ys, by rw [tryMap, hb, hys]⟩

theorem computeNode_ok {eval : Evaluator} {vs : ProjectionValidators}
    {d : TSetDefinition} {vv : SVal} {n : NodeGen}
    (h : computeNode eval vs d vv = .ok n) :
    ∃ ps, tryMap (fun p => computeOneProjection eval vs vv p.1 p.2)
        d.projections = .ok ps ∧ n = NodeGen.mk vv ps := by
  unfold computeNode at h
  split at h
  · exact absurd h (by simp)
  · next ps heq => exact ⟨ps, heq, by cases h; rfl⟩

theorem new_ok_shape {eval : Evaluator} {vs : ProjectionValidators}
    {key : Nat} {d : TSetDefinition} {value : Option SVal}
    {children : List SVal} {s : TransitiveSetGen}
    (h : TransitiveSet.new eval vs key d value children = .ok s) :
    d.exported.isNone = false ∧
    ∃ cs nd reds,
      tryMap (checkChild d) children = .ok cs ∧
      ((value = Option.none ∧ nd = Option.none) ∨
        (∃ vv n, value = some vv ∧ computeNode eval vs d vv = .ok n ∧
          nd = some n)) ∧
      computeReductions eval value d cs = .ok reds ∧
      s = .mk key d nd reds children := by
  unfold TransitiveSet.new at h
  split at h
  · exact absurd h (by simp)
  · next hexp =>
    refine ⟨?_, ?_⟩
    · cases h2 : d.exported.isNone with
      | false => rfl
      | true => exact absurd h2 hexp
    split at h
    · exact absurd h (by simp)
    · next cs hcs =>
      split at h
      · exact absurd h (by simp)
      · next nd hnd =>
        split at h
        · exact absurd h (by simp)
        · next reds hreds =>
          cases h
          refine ⟨cs, nd, reds, hcs, ?_, hreds, rfl⟩
          cases value with
          | none =>
            left
            simp at hnd
            exact ⟨rfl, hnd.symm⟩
          | some vv =>
            right
            simp only at hnd
            split at hnd
            · exact absurd hnd (by simp)
            · next n hn =>
              cases hnd
              exact ⟨vv, n, rfl, hn, rfl⟩

theorem new_error_of_children {eval : Evaluator} {vs : ProjectionValidators}
    {key : Nat} {d : TSetDefinition} {value : Option SVal}
    {children : List SVal} {e : BuckError}
    (hexp : d.exported.isNone = false)
    (hc : tryMap (checkChild d) children = .error e) :
    TransitiveSet.new eval vs key d value children = .error e := by
  simp [TransitiveSet.new, hexp, hc]

theorem new_error_of_node {eval : Evaluator} {vs : ProjectionValidators}
    {key : Nat} {d : TSetDefinition} {vv : SVal} {children : List SVal}
    {cs : List TransitiveSetGen} {e : BuckError}
    (hexp : d.exported.isNone = false)
    (hc : tryMap (checkChild d) children = .ok cs)
    (hn : computeNode eval vs d vv = .error e) :
    TransitiveSet.new eval vs key d (some vv) children = .error e := by
  simp [TransitiveSet.new, hexp, hc, hn]

theorem new_error_of_reductions {eval : Evaluator} {vs : ProjectionValidators}
    {key : Nat} {d : TSetDefinition} {value : Option SVal}
    {children : List SVal} {cs : List TransitiveSetGen} {e : BuckError}
    (hexp : d.exported.isNone = false)
    (hc : tryMap (checkChild d) children = .ok cs)
    (hnode : value = Option.none ∨
      ∃ vv n, value = some vv ∧ computeNode eval vs d vv = .ok n)
    (hr : computeReductions eval value d cs = .error e) :
    TransitiveSet.new eval vs key d value children = .error e := by
  rcases hnode with hv | ⟨vv, n, hv, hn⟩
  · subst hv
    simp [TransitiveSet.new, hexp, hc, hr]
  · subst hv
    simp [TransitiveSet.new, hexp, hc, hn, hr]

/-- C10: when a set's node is absent, `get_projection_value` returns
`Ok(None)` for every projection index, including out-of-range ones; the
`Invalid projection id` error is returned exactly when a node is present
and the index is not a valid index into its projections. -/
theorem C10_projection_value_no_node (s : TransitiveSetGen) (p : Nat) :
    (s.node = Option.none → s.get_projection_value p = .ok Option.none) ∧
    (∀ e, s.get_projection_value p = .error e ↔
      (e = .context "Invalid projection id" ∧
        ∃ n, s.node = some n ∧ n.projections.get? p = Option.none)) := by
  constructor
  · intro h
    unfold TransitiveSetGen.get_projection_value
    rw [h]
  · intro e
    unfold TransitiveSetGen.get_projection_value
    cases hn : s.node with
    | none => simp
    | some n =>
      cases hp : n.projections.get? p with
      | none =>
        rw [List.get?_eq_getElem?] at hp
        simp [hp, eq_comm]
        intro _
        by_contra hge
        push_neg at hge
        rw [List.getElem?_eq_getElem hge] at hp
        exact absurd hp (by simp)
      | some v =>
        rw [List.get?_eq_getElem?] at hp
        have hlt : p < n.projections.length := by
          by_contra hge
          rw [List.getElem?_eq_none (by omega)] at hp
          exact absurd hp (by simp)
        simp [hp]
        omega

/-- Witness for C10: a concrete valueless set answers `Ok(None)` at the
out-of-range index 5. -/
theorem C10_witness : jsonChild1.get_projection_value 5 = .ok Option.none :=
  (C10_projection_value_no_node jsonChild1 5).1 rfl

/-- C8: a successful construction stores the input child list exactly as
given: same list, so same length, same order, duplicates retained, each
element the very value passed in. -/
theorem C8_children_as_given {eval : Evaluator} {vs : ProjectionValidators}
    {key : Nat} {d : TSetDefinition} {value : Option SVal}
    {children : List SVal} {s : TransitiveSetGen}
    (h : TransitiveSet.new eval vs key d value children = .ok s) :
    s.children = children := by
  obtain ⟨-, cs, nd, reds, -, -, -, hs⟩ := new_ok_shape h
  subst hs
  rfl

/-- Witness for C8: the concrete parent construction keeps its two
children in order. -/
theorem C8_witness :
    parentSet.children = [SVal.set leafASet, SVal.set leafBSet] :=
  C8_children_as_given (show TransitiveSet.new evalImpl validatorsImpl 3
    defSum (some (SVal.int 3)) [SVal.set leafASet, SVal.set leafBSet] =
    .ok parentSet from rfl)

/-- C9: every successfully constructed set has as many reductions as the
definition has reduction specs, and, when a node is present, as many
projections as the definition has projection specs. -/
theorem C9_alignment {eval : Evaluator} {vs : ProjectionValidators}
    {key : Nat} {d : TSetDefinition} {value : Option SVal}
    {children : List SVal} {s : TransitiveSetGen}
    (h : TransitiveSet.new eval vs key d value children = .ok s) :
    s.reductions.length = d.reductions.length ∧
    (∀ n, s.node = some n →
      n.projections.length = d.projections.length) := by
  obtain ⟨-, cs, nd, reds, hcs, hnode, hreds, hs⟩ := new_ok_shape h
  subst hs
  constructor
  · unfold computeReductions at hreds
    have hlen := tryMap_ok_length hreds
    simpa [TransitiveSetGen.reductions, List.enum_length] using hlen
  · intro n hn
    simp only [TransitiveSetGen.node] at hn
    rcases hnode with ⟨hv, hnd⟩ | ⟨vv, m, hv, hm, hnd⟩
    · rw [hnd] at hn
      exact absurd hn (by simp)
    · rw [hnd] at hn
      cases hn
      obtain ⟨ps, hps, hmk⟩ := computeNode_ok hm
      subst hmk
      have := tryMap_ok_length hps
      simpa [NodeGen.projections] using this

/-- Witness for C9: the concrete parent has one reduction for the one
reduction spec of its definition, and zero projections for its zero
projection specs. -/
theorem C9_witness :
    parentSet.reductions.length = defSum.reductions.length ∧
    (∀ n, parentSet.node = some n →
      n.projections.length = defSum.projections.length) :=
  C9_alignment (show TransitiveSet.new evalImpl validatorsImpl 3
    defSum (some (SVal.int 3)) [SVal.set leafASet, SVal.set leafBSet] =
    .ok parentSet from rfl)

/-- C5: the matcher accepts a value exactly when it is a transitive set
whose definition is exported with the matcher's identity token; hence a
set built against one definition never matches the matcher of a
definition with a different identity token, whatever the specs look
like. -/
theorem C5_matcher :
    (∀ (m : TransitiveSetMatcher) (v : SVal),
      m.matches v = true ↔ ∃ t tid, v.asTSet = some t ∧
        t.definition.exported = some tid ∧ tid = m.type_instance_id) ∧
    (∀ (s : TransitiveSetGen) (tid other : Nat),
      s.definition.exported = some tid → tid ≠ other →
      TransitiveSetMatcher.matches ⟨other⟩ (SVal.set s) = false) := by
  constructor
  · intro m v
    unfold TransitiveSetMatcher.matches
    cases hv : v.asTSet with
    | none => simp
    | some t =>
      cases he : t.definition.exported with
      | none => simp [he]
      | some tid => simp [he, beq_iff_eq]
  · intro s tid other hexp hne
    unfold TransitiveSetMatcher.matches
    simp [SVal.asTSet, hexp]
    exact hne

/-- Witness for C5: `leafA` (identity token 100) does not match a matcher
built for token 101. -/
theorem C5_witness :
    TransitiveSetMatcher.matches ⟨101⟩ (SVal.set leafASet) = false :=
  C5_matcher.2 leafASet 100 101 rfl (by decide)

/-- C1: with an exported definition, construction fails at the first
offending child, in child order: with `TransitiveValueIsOfWrongType`
(expected/got renderings) when that child is a set of another definition,
with `TransitiveValueIsNotTransitiveSet` when it is not a set at all; and
a successful construction implies every child was a set of the same
definition — never a silent success with a mismatched child. -/
theorem C1_child_validation (eval : Evaluator) (vs : ProjectionValidators)
    (key : Nat) (d : TSetDefinition) (value : Option SVal)
    (children : List SVal) :
    (∀ i v t, d.exported.isNone = false →
      children.get? i = some v →
      (∀ j w, j < i → children.get? j = some w →
        ∃ u, w.asTSet = some u ∧ u.matches_definition d = true) →
      v.asTSet = some t → t.matches_definition d = false →
      TransitiveSet.new eval vs key d value children =
        .error (.tset (.TransitiveValueIsOfWrongType
          (format_def d) (format_def t.definition)))) ∧
    (∀ i v, d.exported.isNone = false →
      children.get? i = some v →
      (∀ j w, j < i → children.get? j = some w →
        ∃ u, w.asTSet = some u ∧ u.matches_definition d = true) →
      v.asTSet = Option.none →
      TransitiveSet.new eval vs key d value children =
        .error (.tset (.TransitiveValueIsNotTransitiveSet v.display))) ∧
    (∀ s, TransitiveSet.new eval vs key d value children = .ok s →
      ∀ i v, children.get? i = some v →
        ∃ t, v.asTSet = some t ∧ t.matches_definition d = true) := by
  have hprev_ok : ∀ (i : Nat),
      (∀ j w, j < i → children.get? j = some w →
        ∃ u, w.asTSet = some u ∧ u.matches_definition d = true) →
      ∀ j y, j < i → children.get? j = some y →
        ∃ b, checkChild d y = .ok b := by
    intro i hprev j y hj hy
    obtain ⟨u, hu, hum⟩ := hprev j y hj hy
    exact ⟨u, by simp [checkChild, hu, hum]⟩
  refine ⟨?_, ?_, ?_⟩
  · intro i v t hexp hi hprev hv hmatch
    have hcheck : checkChild d v = .error (.tset
        (.TransitiveValueIsOfWrongType (format_def d)
          (format_def t.definition))) := by
      simp [checkChild, hv, hmatch]
    exact new_error_of_children hexp
      (tryMap_first_error hi (hprev_ok i hprev) hcheck)
  · intro i v hexp hi hprev hv
    have hcheck : checkChild d v = .error (.tset
        (.TransitiveValueIsNotTransitiveSet v.display)) := by
      simp [checkChild, hv]
    exact new_error_of_children hexp
      (tryMap_first_error hi (hprev_ok i hprev) hcheck)
  · intro s h i v hi
    obtain ⟨-, cs, nd, reds, hcs, -, -, -⟩ := new_ok_shape h
    obtain ⟨y, -, hy⟩ := tryMap_ok_get hcs i v hi
    unfold checkChild at hy
    cases hv : v.asTSet with
    | none => simp only [hv] at hy; exact absurd hy (by simp)
    | some t =>
      simp only [hv] at hy
      cases hm : t.matches_definition d with
      | true => exact ⟨t, rfl, hm⟩
      | false => rw [hm] at hy; exact absurd hy (by simp)

/-- Witness for C1: a child of another definition fails with the
wrong-type error; a non-set child fails with the not-a-set error. -/
theorem C1_witness :
    TransitiveSet.new evalImpl validatorsImpl 5 defSum Option.none
      [SVal.set otherSet] =
      .error (.tset (.TransitiveValueIsOfWrongType "defSum" "defOther")) ∧
    TransitiveSet.new evalImpl validatorsImpl 5 defSum Option.none
      [SVal.int 0] =
      .error (.tset (.TransitiveValueIsNotTransitiveSet "0")) :=
  ⟨(C1_child_validation evalImpl validatorsImpl 5 defSum Option.none
      [SVal.set otherSet]).1 0 (SVal.set otherSet) otherSet rfl rfl
      (fun j _ hj _ => absurd hj (Nat.not_lt_zero j)) rfl rfl,
   (C1_child_validation evalImpl validatorsImpl 5 defSum Option.none
      [SVal.int 0]).2.1 0 (SVal.int 0) rfl rfl
      (fun j _ hj _ => absurd hj (Nat.not_lt_zero j)) rfl⟩

theorem gatherReduction_ok {idx : Nat} {c : TransitiveSetGen} {r : SVal} :
    gatherReduction idx c = .ok r ↔ c.reductions.get? idx = some r := by
  unfold gatherReduction
  cases h : c.reductions.get? idx <;> simp [h]

/-- C3: on success, each stored reduction at index `i` is the reduce
callback applied to the ordered list of the children's reductions at `i`
and the value-or-none; a reduce callback failure is wrapped as
`ReductionError{name}`; a child lacking the reduction slot gives the
missing-reduction context error (at the first such child); a reduction
failure aborts the whole construction. -/
theorem C3_reduction_fold (eval : Evaluator) (vs : ProjectionValidators)
    (key : Nat) (d : TSetDefinition) (value : Option SVal)
    (children : List SVal) :
    (∀ s i name f, TransitiveSet.new eval vs key d value children = .ok s →
      d.reductions.get? i = some (name, f) →
      ∃ cs rv r, tryMap (checkChild d) children = .ok cs ∧
        tryMap (gatherReduction i) cs = .ok rv ∧
        (∀ j c, cs.get? j = some c → rv.get? j = c.reductions.get? i) ∧
        eval f [SVal.list rv, value.getD SVal.none] = .ok r ∧
        s.reductions.get? i = some r) ∧
    (∀ cs i name f rv e, tryMap (gatherReduction i) cs = .ok rv →
      eval f [SVal.list rv, value.getD SVal.none] = .error e →
      computeOneReduction eval value cs i name f =
        .error (.tset (.ReductionError name e))) ∧
    (∀ cs i name f j c, cs.get? j = some c →
      c.reductions.get? i = Option.none →
      (∀ k u, k < j → cs.get? k = some u →
        ∃ r, u.reductions.get? i = some r) →
      computeOneReduction eval value cs i name f = .error (.context
        ("Child " ++ c.definition.debugRepr ++ " is missing reduction "
          ++ toString i))) ∧
    (∀ cs e, d.exported.isNone = false →
      tryMap (checkChild d) children = .ok cs →
      (value = Option.none ∨
        ∃ vv n, value = some vv ∧ computeNode eval vs d vv = .ok n) →
      computeReductions eval value d cs = .error e →
      TransitiveSet.new eval vs key d value children = .error e) := by
  refine ⟨?_, ?_, ?_, ?_⟩
  · intro s i name f h hspec
    obtain ⟨-, cs, nd, reds, hcs, -, hreds, hs⟩ := new_ok_shape h
    unfold computeReductions at hreds
    have henum : d.reductions.enum.get? i = some (i, (name, f)) := by
      rw [List.get?_enum, hspec]
      rfl
    obtain ⟨r, hrget, hone⟩ := tryMap_ok_get hreds i (i, (name, f)) henum
    unfold computeOneReduction at hone
    refine ⟨cs, ?_⟩
    cases hg : tryMap (gatherReduction i) cs with
    | error e => rw [hg] at hone; exact absurd hone (by simp)
    | ok rv =>
      rw [hg] at hone
      simp only at hone
      refine ⟨rv, r, hcs, rfl, ?_, ?_, ?_⟩
      · intro j c hj
        obtain ⟨y, hy1, hy2⟩ := tryMap_ok_get hg j c hj
        rw [hy1, gatherReduction_ok.mp hy2]
      · cases he : eval f [SVal.list rv, value.getD SVal.none] with
        | error e => rw [he] at hone; exact absurd hone (by simp)
        | ok reduced => rw [he] at hone; cases hone; rfl
      · subst hs
        exact hrget
  · intro cs i name f rv e h1 h2
    unfold computeOneReduction
    rw [h1]
    simp [h2]
  · intro cs i name f j c hj hnone hprev
    have hcheck : gatherReduction i c = .error (.context
        ("Child " ++ c.definition.debugRepr ++ " is missing reduction "
          ++ toString i)) := by
      unfold gatherReduction
      rw [hnone]
    have hprev' : ∀ k u, k < j → cs.get? k = some u →
        ∃ b, gatherReduction i u = .ok b := by
      intro k u hk hu
      obtain ⟨r, hr⟩ := hprev k u hk hu
      exact ⟨r, gatherReduction_ok.mpr hr⟩
    have := tryMap_first_error hj hprev' hcheck
    unfold computeOneReduction
    rw [this]
  · intro cs e hexp hcs hnode hred
    exact new_error_of_reductions hexp hcs hnode hred

/-- Witness for C3: the spec's sum example. `parent(value=3,
children=[leafA(value=1), leafB(value=2)])` stores reduction "sum" `6`,
computed by the callback from the children's reductions `[1, 2]` and the
value `3`. -/
theorem C3_witness :
    (∃ cs rv r, tryMap (checkChild defSum)
        [SVal.set leafASet, SVal.set leafBSet] = .ok cs ∧
      tryMap (gatherReduction 0) cs = .ok rv ∧
      (∀ j c, cs.get? j = some c → rv.get? j = c.reductions.get? 0) ∧
      evalImpl 0 [SVal.list rv, (some (SVal.int 3)).getD SVal.none] =
        .ok r ∧
      parentSet.reductions.get? 0 = some r) ∧
    parentSet.reductions.get? 0 = some (SVal.int 6) :=
  ⟨(C3_reduction_fold evalImpl validatorsImpl 3 defSum (some (SVal.int 3))
      [SVal.set leafASet, SVal.set leafBSet]).1 parentSet 0 "sum" 0
      (show _ = Except.ok parentSet from rfl) rfl,
   rfl⟩

/-- C4 (amended): each projection callback is invoked with the value as
sole argument and a callback failure aborts construction wrapped as
`ProjectionError{name}`; a callback result failing the projection kind's
contract check (Args command-line coercibility or Json serializability)
also aborts construction, but with the validator's own error propagated
unchanged, not wrapped as `ProjectionError`. -/
theorem C4_projection_errors (eval : Evaluator) (vs : ProjectionValidators) :
    (∀ value name spec e, eval spec.projection [value] = .error e →
      computeOneProjection eval vs value name spec =
        .error (.tset (.ProjectionError name e))) ∧
    (∀ value name spec pv e, eval spec.projection [value] = .ok pv →
      spec.kind = .Args → vs.asCommandLine pv = .error e →
      computeOneProjection eval vs value name spec = .error e) ∧
    (∀ value name spec pv e, eval spec.projection [value] = .ok pv →
      spec.kind = .Json → vs.validateJson pv = .error e →
      computeOneProjection eval vs value name spec = .error e) ∧
    (∀ d i name spec vv e,
      d.projections.get? i = some (name, spec) →
      (∀ j p, j < i → d.projections.get? j = some p →
        ∃ y, computeOneProjection eval vs vv p.1 p.2 = .ok y) →
      computeOneProjection eval vs vv name spec = .error e →
      computeNode eval vs d vv = .error e) ∧
    (∀ key d vv children cs e, d.exported.isNone = false →
      tryMap (checkChild d) children = .ok cs →
      computeNode eval vs d vv = .error e →
      TransitiveSet.new eval vs key d (some vv) children = .error e) := by
  refine ⟨?_, ?_, ?_, ?_, ?_⟩
  · intro value name spec e h
    unfold computeOneProjection
    rw [h]
  · intro value name spec pv e h hkind hval
    unfold computeOneProjection
    rw [h, hkind]
    simp [hval]
  · intro value name spec pv e h hkind hval
    unfold computeOneProjection
    rw [h, hkind]
    simp [hval]
  · intro d i name spec vv e hspec hprev herr
    have herr2 : tryMap (fun p => computeOneProjection eval vs vv p.1 p.2)
        d.projections = .error e :=
      tryMap_first_error hspec hprev herr
    unfold computeNode
    rw [herr2]
  · intro key d vv children cs e hexp hcs hn
    exact new_error_of_node hexp hcs hn

/-- Counterexample to C4 as stated: an Args projection whose callback
result (the integer 7) is not command-line coercible aborts construction
with the validator's raw error, which is not of the `ProjectionError`
kind. -/
theorem C4_counterexample :
    TransitiveSet.new evalImpl validatorsImpl 0 defBadArgs (some SVal.none)
      [] = .error (.external "Expected a command line value") ∧
    BuckError.isProjectionErr (.external "Expected a command line value") =
      false :=
  ⟨rfl, rfl⟩

/-- Witness for C4: a failing callback is wrapped as `ProjectionError`,
while a failing Args kind-contract check propagates the validator's
error. -/
theorem C4_witness :
    computeOneProjection evalImpl validatorsImpl (SVal.int 0) "p" ⟨.Args, 2⟩
      = .error (.tset (.ProjectionError "p" "boom")) ∧
    computeOneProjection evalImpl validatorsImpl SVal.none "p" ⟨.Args, 3⟩
      = .error (.external "Expected a command line value") :=
  ⟨(C4_projection_errors evalImpl validatorsImpl).1 (SVal.int 0) "p"
      ⟨.Args, 2⟩ "boom" rfl,
   (C4_projection_errors evalImpl validatorsImpl).2.1 SVal.none "p"
      ⟨.Args, 3⟩ (SVal.int 7)
      (.external "Expected a command line value") rfl rfl rfl⟩

theorem tryMap_defer_ok {p : Nat} {cs : List SVal}
    (h : ∀ v ∈ cs, ∃ t, v.asTSet = some t) :
    tryMap (fun v => match v.asTSet with
      | some t => Except.ok (ArtifactGroup.transitiveSetProjection t.key p)
      | Option.none => Except.error (BuckError.context "Invalid deferred"))
      cs = .ok ((childSets cs).map
        (fun t => ArtifactGroup.transitiveSetProjection t.key p)) ∧
    (childSets cs).length = cs.length := by
  induction cs with
  | nil => exact ⟨rfl, rfl⟩
  | cons v vs ih =>
    obtain ⟨t, ht⟩ := h v (by simp)
    obtain ⟨ih1, ih2⟩ := ih (fun w hw => h w (by simp [hw]))
    cases v with
    | set u =>
      have hu : u = t := by simpa [SVal.asTSet] using ht
      subst hu
      constructor
      · rw [tryMap, ih1]
        rfl
      · simp [childSets, ih2]
    | none => exact absurd ht (by simp [SVal.asTSet])
    | int n => exact absurd ht (by simp [SVal.asTSet])
    | str s => exact absurd ht (by simp [SVal.asTSet])
    | list xs => exact absurd ht (by simp [SVal.asTSet])

/-- C2: for a set with a projection value at index `p`, the sub-inputs are
exactly the visitor's artifact references for that value followed by one
deferred `(child.key, p)` reference per direct child, in child order; for
a set without a node, only the deferred child references; no child's own
artifacts are inlined and no grandchild is visited. -/
theorem C2_sub_inputs (visit : ArtifactVisitor) (s : TransitiveSetGen)
    (p : Nat) :
    (∀ pv arts, s.get_projection_value p = .ok (some pv) →
      visit pv = .ok arts →
      (∀ v ∈ s.children, ∃ t, v.asTSet = some t) →
      s.get_projection_sub_inputs visit p = .ok (arts ++
        (childSets s.children).map
          (fun t => ArtifactGroup.transitiveSetProjection t.key p)) ∧
      (childSets s.children).length = s.children.length) ∧
    (s.get_projection_value p = .ok Option.none →
      (∀ v ∈ s.children, ∃ t, v.asTSet = some t) →
      s.get_projection_sub_inputs visit p = .ok
        ((childSets s.children).map
          (fun t => ArtifactGroup.transitiveSetProjection t.key p))) := by
  constructor
  · intro pv arts hpv hvisit hsets
    obtain ⟨hdef, hlen⟩ := tryMap_defer_ok (p := p) hsets
    refine ⟨?_, hlen⟩
    unfold TransitiveSetGen.get_projection_sub_inputs
    rw [hpv]
    simp only [hvisit, hdef]
  · intro hpv hsets
    obtain ⟨hdef, hlen⟩ := tryMap_defer_ok (p := p) hsets
    unfold TransitiveSetGen.get_projection_sub_inputs
    rw [hpv]
    simp only [hdef]
    rfl

/-- Witness for C2: the concrete parent with projection value containing
artifact 5 and two children with keys 8 and 9 yields that artifact plus
exactly the two deferred references. -/
theorem C2_witness :
    jsonParent.get_projection_sub_inputs visitImpl 0 =
      .ok [ArtifactGroup.artifact 5,
        ArtifactGroup.transitiveSetProjection 8 0,
        ArtifactGroup.transitiveSetProjection 9 0] ∧
    (childSets jsonParent.children).length = jsonParent.children.length :=
  (C2_sub_inputs visitImpl jsonParent 0).1 (SVal.list [SVal.int 5])
    [ArtifactGroup.artifact 5] rfl rfl
    (by
      intro v hv
      have hv2 : v = SVal.set jsonChild1 ∨ v = SVal.set jsonChild2 := by
        simpa [jsonParent, TransitiveSetGen.children] using hv
      rcases hv2 with h | h <;> subst h <;> exact ⟨_, rfl⟩)

/-- C7: `iter_projection_values` validates the projection index once,
against the first node of the traversal: out of range there gives the
`Invalid projection` error; otherwise the sequence yields every traversed
node's projection at that index with no further validation; an empty
traversal yields the empty sequence. -/
theorem C7_iter_projection_once (s : TransitiveSetGen)
    (ord : TransitiveSetOrdering) (p : Nat) :
    (∀ v, (s.iterValues ord).head? = some v →
      (v.projections.get? p = Option.none →
        s.iter_projection_values ord p =
          .error (.context "Invalid projection")) ∧
      (∀ x, v.projections.get? p = some x →
        s.iter_projection_values ord p =
          .ok ((s.iterValues ord).map
            (fun n => n.projections.get? p)))) ∧
    ((s.iterValues ord) = [] →
      s.iter_projection_values ord p = .ok []) := by
  constructor
  · intro v hv
    constructor
    · intro hnone
      unfold TransitiveSetGen.iter_projection_values
      rw [hv]
      simp only [hnone]
    · intro x hx
      unfold TransitiveSetGen.iter_projection_values
      rw [hv]
      simp only [hx]
  · intro hnil
    unfold TransitiveSetGen.iter_projection_values
    rw [hnil]
    rfl

/-- Witness for C7: on the concrete parent's preorder traversal, index 1
is rejected against the first node while index 0 yields the projection
values. -/
theorem C7_witness :
    jsonParent.iter_projection_values .Preorder 1 =
      .error (.context "Invalid projection") ∧
    jsonParent.iter_projection_values .Preorder 0 =
      .ok [some (SVal.list [SVal.int 5])] :=
  ⟨((C7_iter_projection_once jsonParent .Preorder 1).1
      (NodeGen.mk (SVal.list [SVal.int 5]) [SVal.list [SVal.int 5]])
      rfl).1 rfl,
   ((C7_iter_projection_once jsonParent .Preorder 0).1
      (NodeGen.mk (SVal.list [SVal.int 5]) [SVal.list [SVal.int 5]])
      rfl).2 (SVal.list [SVal.int 5]) rfl⟩

theorem freezeS_key (fz : SVal → SVal) (s : TransitiveSetGen) :
    (s.freezeS fz).key = s.key := by
  cases s
  rfl

theorem freezeS_definition (fz : SVal → SVal) (s : TransitiveSetGen) :
    (s.freezeS fz).definition = s.definition := by
  cases s
  rfl

theorem freezeS_node (fz : SVal → SVal) (s : TransitiveSetGen) :
    (s.freezeS fz).node = freezeOptNode fz s.node := by
  cases s
  rfl

theorem freezeS_reductions (fz : SVal → SVal) (s : TransitiveSetGen) :
    (s.freezeS fz).reductions = freezeVList fz s.reductions := by
  cases s
  rfl

theorem freezeS_children (fz : SVal → SVal) (s : TransitiveSetGen) :
    (s.freezeS fz).children = freezeVList fz s.children := by
  cases s
  rfl

theorem freezeVList_eq_map (fz : SVal → SVal) (l : List SVal) :
    freezeVList fz l = l.map (SVal.freezeV fz) := by
  induction l with
  | nil => rfl
  | cons v vs ih => rw [freezeVList, ih]; rfl

theorem freezeOptNode_eq_map (fz : SVal → SVal) (o : Option NodeGen) :
    freezeOptNode fz o = o.map (NodeGen.freezeN fz) := by
  cases o <;> rfl

theorem freezeN_projections (fz : SVal → SVal) (n : NodeGen) :
    (n.freezeN fz).projections = freezeVList fz n.projections := by
  cases n
  rfl

theorem freezeV_set (fz : SVal → SVal) (t : TransitiveSetGen) :
    (SVal.set t).freezeV fz = SVal.set (t.freezeS fz) := rfl

theorem freezeV_nonset {fz : SVal → SVal} {v : SVal}
    (hv : v.asTSet = Option.none) : v.freezeV fz = fz v := by
  cases v <;> first
    | rfl
    | exact absurd hv (by simp [SVal.asTSet])

theorem freezeV_asTSet_none {fz : SVal → SVal}
    (hfz : ∀ v, v.asTSet = Option.none → (fz v).asTSet = Option.none)
    {v : SVal} (hv : v.asTSet = Option.none) :
    (v.freezeV fz).asTSet = Option.none := by
  rw [freezeV_nonset hv]
  exact hfz v hv

theorem childSets_cons_nonset {w : SVal} {cs : List SVal}
    (hw : w.asTSet = Option.none) :
    childSets (w :: cs) = childSets cs := by
  cases w <;> first
    | rfl
    | exact absurd hw (by simp [SVal.asTSet])

theorem childSets_freeze {fz : SVal → SVal}
    (hfz : ∀ v, v.asTSet = Option.none → (fz v).asTSet = Option.none)
    (cs : List SVal) :
    childSets (freezeVList fz cs) =
      (childSets cs).map (TransitiveSetGen.freezeS fz) := by
  induction cs with
  | nil => rfl
  | cons v vs ih =>
    cases hv : v.asTSet with
    | some t =>
      have hvt : v = SVal.set t := by
        cases v <;> simp [SVal.asTSet] at hv <;> rw [hv]
      subst hvt
      rw [freezeVList, freezeV_set, childSets, childSets, ih]
      rfl
    | none =>
      rw [freezeVList, childSets_cons_nonset (freezeV_asTSet_none hfz hv),
        childSets_cons_nonset hv, ih]

theorem preChildren_cons_nonset {w : SVal} {cs : List SVal}
    {visited : List Nat} (hw : w.asTSet = Option.none) :
    preChildren (w :: cs) visited = preChildren cs visited := by
  cases w <;> first
    | rfl
    | exact absurd hw (by simp [SVal.asTSet])

theorem postChildren_cons_nonset {w : SVal} {cs : List SVal}
    {visited : List Nat} (hw : w.asTSet = Option.none) :
    postChildren (w :: cs) visited = postChildren cs visited := by
  cases w <;> first
    | rfl
    | exact absurd hw (by simp [SVal.asTSet])

mutual
theorem preSet_freeze (fz : SVal → SVal)
    (hfz : ∀ v, v.asTSet = Option.none → (fz v).asTSet = Option.none)
    (s : TransitiveSetGen) (visited : List Nat) :
    preSet (s.freezeS fz) visited =
      (((preSet s visited).1).map (TransitiveSetGen.freezeS fz),
        (preSet s visited).2) := by
  cases s with
  | mk k d n r c =>
    rw [show (TransitiveSetGen.mk k d n r c).freezeS fz =
      TransitiveSetGen.mk k d (freezeOptNode fz n) (freezeVList fz r)
        (freezeVList fz c) from rfl]
    simp only [preSet]
    by_cases hk : k ∈ visited
    · simp [hk]
    · rw [if_neg hk, if_neg hk, preChildren_freeze fz hfz c (k :: visited)]
      rfl

theorem preChildren_freeze (fz : SVal → SVal)
    (hfz : ∀ v, v.asTSet = Option.none → (fz v).asTSet = Option.none)
    (cs : List SVal) (visited : List Nat) :
    preChildren (freezeVList fz cs) visited =
      (((preChildren cs visited).1).map (TransitiveSetGen.freezeS fz),
        (preChildren cs visited).2) := by
  cases cs with
  | nil => rfl
  | cons v vs =>
    cases hv : v.asTSet with
    | some t =>
      have hvt : v = SVal.set t := by
        cases v <;> simp [SVal.asTSet] at hv
        rw [hv]
      subst hvt
      rw [freezeVList, freezeV_set]
      simp only [preChildren]
      rw [preSet_freeze fz hfz t visited,
        preChildren_freeze fz hfz vs (preSet t visited).2]
      simp [List.map_append]
    | none =>
      rw [freezeVList, preChildren_cons_nonset
          (freezeV_asTSet_none hfz hv),
        preChildren_cons_nonset hv]
      exact preChildren_freeze fz hfz vs visited
end

mutual
theorem postSet_freeze (fz : SVal → SVal)
    (hfz : ∀ v, v.asTSet = Option.none → (fz v).asTSet = Option.none)
    (s : TransitiveSetGen) (visited : List Nat) :
    postSet (s.freezeS fz) visited =
      (((postSet s visited).1).map (TransitiveSetGen.freezeS fz),
        (postSet s visited).2) := by
  cases s with
  | mk k d n r c =>
    rw [show (TransitiveSetGen.mk k d n r c).freezeS fz =
      TransitiveSetGen.mk k d (freezeOptNode fz n) (freezeVList fz r)
        (freezeVList fz c) from rfl]
    simp only [postSet]
    by_cases hk : k ∈ visited
    · simp [hk]
    · rw [if_neg hk, if_neg hk, postChildren_freeze fz hfz c (k :: visited)]
      simp [List.map_append]
      rfl

theorem postChildren_freeze (fz : SVal → SVal)
    (hfz : ∀ v, v.asTSet = Option.none → (fz v).asTSet = Option.none)
    (cs : List SVal) (visited : List Nat) :
    postChildren (freezeVList fz cs) visited =
      (((postChildren cs visited).1).map (TransitiveSetGen.freezeS fz),
        (postChildren cs visited).2) := by
  cases cs with
  | nil => rfl
  | cons v vs =>
    cases hv : v.asTSet with
    | some t =>
      have hvt : v = SVal.set t := by
        cases v <;> simp [SVal.asTSet] at hv
        rw [hv]
      subst hvt
      rw [freezeVList, freezeV_set]
      simp only [postChildren]
      rw [postSet_freeze fz hfz t visited,
        postChildren_freeze fz hfz vs (postSet t visited).2]
      simp [List.map_append]
    | none =>
      rw [freezeVList, postChildren_cons_nonset
          (freezeV_asTSet_none hfz hv),
        postChildren_cons_nonset hv]
      exact postChildren_freeze fz hfz vs visited
end

theorem bfsAux_freeze (fz : SVal → SVal)
    (hfz : ∀ v, v.asTSet = Option.none → (fz v).asTSet = Option.none)
    (fuel : Nat) :
    ∀ (queue : List TransitiveSetGen) (visited : List Nat),
      bfsAux fuel (queue.map (TransitiveSetGen.freezeS fz)) visited =
        (bfsAux fuel queue visited).map (TransitiveSetGen.freezeS fz) := by
  induction fuel with
  | zero => intro queue visited; rfl
  | succ fuel ih =>
    intro queue visited
    cases queue with
    | nil => rfl
    | cons s rest =>
      rw [List.map_cons]
      simp only [bfsAux, freezeS_key]
      by_cases hk : s.key ∈ visited
      · rw [if_pos hk, if_pos hk, ih]
      · rw [if_neg hk, if_neg hk, freezeS_children,
          childSets_freeze hfz, ← List.map_append, ih]
        rfl

theorem bfsFuel_freeze {fz : SVal → SVal}
    (hfz : ∀ v, v.asTSet = Option.none → (fz v).asTSet = Option.none)
    (s : TransitiveSetGen) : bfsFuel (s.freezeS fz) = bfsFuel s := by
  unfold bfsFuel
  rw [preSet_freeze fz hfz s []]
  simp only [List.map_map]
  congr 2
  refine List.map_congr_left ?_
  intro t _
  simp [Function.comp, freezeS_children, childSets_freeze hfz]

theorem iterSets_freeze {fz : SVal → SVal}
    (hfz : ∀ v, v.asTSet = Option.none → (fz v).asTSet = Option.none)
    (s : TransitiveSetGen) (ord : TransitiveSetOrdering) :
    (s.freezeS fz).iterSets ord =
      (s.iterSets ord).map (TransitiveSetGen.freezeS fz) := by
  cases ord with
  | Preorder =>
    unfold TransitiveSetGen.iterSets
    rw [preSet_freeze fz hfz s []]
  | Postorder =>
    unfold TransitiveSetGen.iterSets
    rw [postSet_freeze fz hfz s []]
  | Topological =>
    unfold TransitiveSetGen.iterSets
    rw [postSet_freeze fz hfz s []]
    exact (List.map_reverse _ _).symm
  | Bfs =>
    unfold TransitiveSetGen.iterSets
    rw [bfsFuel_freeze hfz s,
      show [s.freezeS fz] = [s].map (TransitiveSetGen.freezeS fz) from rfl,
      bfsAux_freeze fz hfz (bfsFuel s) [s] []]

theorem filterMap_node_freeze (fz : SVal → SVal)
    (l : List TransitiveSetGen) :
    (l.map (TransitiveSetGen.freezeS fz)).filterMap
        (fun t => t.node) =
      (l.filterMap (fun t => t.node)).map (NodeGen.freezeN fz) := by
  induction l with
  | nil => rfl
  | cons s rest ih =>
    rw [List.map_cons, List.filterMap_cons, List.filterMap_cons,
      freezeS_node]
    cases hn : s.node with
    | none => simpa using ih
    | some n => simp [freezeOptNode, ih]

theorem iterValues_freeze {fz : SVal → SVal}
    (hfz : ∀ v, v.asTSet = Option.none → (fz v).asTSet = Option.none)
    (s : TransitiveSetGen) (ord : TransitiveSetOrdering) :
    (s.freezeS fz).iterValues ord =
      (s.iterValues ord).map (NodeGen.freezeN fz) := by
  unfold TransitiveSetGen.iterValues
  rw [iterSets_freeze hfz s ord, filterMap_node_freeze]

/-- C6: freezing preserves content: same key and definition, children
frozen element-wise in order with identity-sharing preserved, the node's
value and projections frozen one-to-one, reductions frozen pointwise by
index, projection-value queries commuting with freezing, and every
traversal ordering yielding the frozen images of the original nodes in
the same order. -/
theorem C6_freeze_preserves (fz : SVal → SVal) (s : TransitiveSetGen)
    (hfz : ∀ v, v.asTSet = Option.none → (fz v).asTSet = Option.none) :
    (s.freezeS fz).key = s.key ∧
    (s.freezeS fz).definition = s.definition ∧
    (s.freezeS fz).children = s.children.map (SVal.freezeV fz) ∧
    (∀ i j, s.children.get? i = s.children.get? j →
      (s.freezeS fz).children.get? i = (s.freezeS fz).children.get? j) ∧
    (s.freezeS fz).node = s.node.map (NodeGen.freezeN fz) ∧
    (∀ n, s.node = some n → ∃ nf, (s.freezeS fz).node = some nf ∧
      nf.value = n.value.freezeV fz ∧
      nf.projections = n.projections.map (SVal.freezeV fz)) ∧
    (∀ i, (s.freezeS fz).reductions.get? i =
      (s.reductions.get? i).map (SVal.freezeV fz)) ∧
    (∀ p, (s.freezeS fz).get_projection_value p =
      Except.map (Option.map (SVal.freezeV fz))
        (s.get_projection_value p)) ∧
    (∀ ord, (s.freezeS fz).iterValues ord =
      (s.iterValues ord).map (NodeGen.freezeN fz)) := by
  refine ⟨freezeS_key fz s, freezeS_definition fz s, ?_, ?_, ?_, ?_, ?_,
    ?_, fun ord => iterValues_freeze hfz s ord⟩
  · rw [freezeS_children, freezeVList_eq_map]
  · intro i j hij
    rw [freezeS_children, freezeVList_eq_map, List.get?_map,
      List.get?_map, hij]
  · rw [freezeS_node, freezeOptNode_eq_map]
  · intro n hn
    refine ⟨n.freezeN fz, ?_, ?_, ?_⟩
    · rw [freezeS_node, hn]
      rfl
    · cases n
      rfl
    · rw [freezeN_projections, freezeVList_eq_map]
  · intro i
    rw [freezeS_reductions, freezeVList_eq_map, List.get?_map]
  · intro p
    unfold TransitiveSetGen.get_projection_value
    rw [freezeS_node]
    cases hn : s.node with
    | none => rfl
    | some n =>
      simp only [freezeOptNode]
      rw [freezeN_projections, freezeVList_eq_map, List.get?_map]
      cases hp : n.projections.get? p with
      | none => rfl
      | some v => rfl

/-- Witness for C6: freezing the concrete parent (with the identity
leaf-freezer) keeps its key, its children element-wise, and its traversal
results for every ordering. -/
theorem C6_witness :
    (parentSet.freezeS id).key = parentSet.key ∧
    (parentSet.freezeS id).children =
      parentSet.children.map (SVal.freezeV id) ∧
    (∀ ord, (parentSet.freezeS id).iterValues ord =
      (parentSet.iterValues ord).map (NodeGen.freezeN id)) :=
  ⟨(C6_freeze_preserves id parentSet (fun _ h => h)).1,
   (C6_freeze_preserves id parentSet (fun _ h => h)).2.2.1,
   (C6_freeze_preserves id parentSet (fun _ h => h)).2.2.2.2.2.2.2.2⟩
